import Mathlib

/-
Verification of the trade-simulator source (MAIN.cpp, Trade_simulator.h)
against its natural-language specification.

Embedding choices:
* Order-book prices and sizes (`double` in the source) are embedded as
  rationals wherever the source only adds, multiplies, divides and compares
  them (slippage, fees, validation); the transcendental cost models
  (`sqrt` in CalculateMarketImpact, `exp` in PredictMakerTakerRatio) are
  embedded over the reals with `Real.sqrt` / `Real.exp`, i.e. exact-real
  semantics.
* The global `std::deque<OrderBook> orderBookHistory` is embedded as a
  `List OrderBook` passed explicitly, front = oldest, back = newest;
  `pop_front` is `List.tail`, `push_back` is `· ++ [b]`, `back()` is
  `List.getLast?`.
* `bids[0]` (unchecked `std::vector::operator[]`) is embedded as
  `List.head?`, so an out-of-bounds access is a visible `none` rather
  than undefined behaviour.
* C++ exceptions become `Except`: `SimulateTradeBody` is the try-block of
  `TradeSimulator::SimulateTrade`, and `SimulateTrade` wraps it with the
  function's own `catch (const std::exception&)` clause, which converts
  any escaping exception into a default-constructed `SimulationResults`.
* Wall-clock latency measurement is not modelled; the embedded `latency`
  field is always 0.
-/

/-- Order-book snapshot: `struct OrderBook` (MAIN.cpp lines 22-27).
Each side is a list of (price, size) pairs; `timestamp` is an abstract
tick standing for the `std::chrono` time point. -/
structure OrderBook where
  symbol : String
  asks : List (ℚ × ℚ)
  bids : List (ℚ × ℚ)
  timestamp : ℕ
  deriving DecidableEq, Repr

/-- A default-constructed `OrderBook` has empty string, empty sides, zero
time, exactly as C++ default construction of the members. -/
instance : Inhabited OrderBook := ⟨⟨"", [], [], 0⟩⟩

/-- Simulation output: `struct SimulationResults` (MAIN.cpp lines 30-37),
every field zero-initialised in the source. -/
structure SimulationResults where
  slippage : ℝ := 0
  fees : ℝ := 0
  marketImpact : ℝ := 0
  netCost : ℝ := 0
  makerTakerRatio : ℝ := 0
  latency : ℝ := 0

/-- The errors that can escape the try-block of `SimulateTrade`:
a validation failure (`std::invalid_argument` thrown by `ValidateInputs`,
MAIN.cpp lines 287-291), or the out-of-bounds access `bids[0]` in
`CalculateSlippage` made visible by the `Option` embedding. -/
inductive SimError where
  | validation (msg : String)
  | outOfBounds
  deriving DecidableEq, Repr

/-- `TradeSimulator::ValidateInputs` (MAIN.cpp lines 287-291): throws
(here: returns `.error`) unless `quantity > 0`, `volatility ≥ 0` and
`0 ≤ feeTier ≤ 1`. -/
def ValidateInputs (quantity volatility feeTier : ℚ) : Except String Unit :=
  if quantity ≤ 0 then Except.error "Quantity must be positive"
  else if volatility < 0 then Except.error "Volatility cannot be negative"
  else if feeTier < 0 ∨ feeTier > 1 then Except.error "Fee tier must be between 0 and 1"
  else Except.ok ()

/-- The ask-walk loop of `TradeSimulator::CalculateSlippage`
(MAIN.cpp lines 298-307): walks the levels in order, at each taking
`min(orderQty - filled, size)`, accumulating `cost += take * price` and
`filled += take`, breaking when `filled >= orderQty`.  Returns the final
`(filled, cost)` pair. -/
def slippageWalk (orderQty : ℚ) : List (ℚ × ℚ) → ℚ → ℚ → ℚ × ℚ
  | [], filled, cost => (filled, cost)
  | level :: rest, filled, cost =>
    let take := min (orderQty - filled) level.2
    let cost' := cost + take * level.1
    let filled' := filled + take
    if orderQty ≤ filled' then (filled', cost')
    else slippageWalk orderQty rest filled' cost'

/-- `TradeSimulator::CalculateSlippage` (MAIN.cpp lines 293-310):
`initialPrice = bids[0].first` (embedded as `head?`; `none` marks the
out-of-bounds access on an empty bid side), then the ask walk, then
`(cost / orderQty) - initialPrice`. -/
def CalculateSlippage (orderQty : ℚ) (book : OrderBook) : Option ℚ :=
  match book.bids.head? with
  | none => none
  | some best => some ((slippageWalk orderQty book.asks 0 0).2 / orderQty - best.1)

/-- The append/evict step of `WebSocketHandler::ProcessData`
(MAIN.cpp lines 148-155): under the history lock, if
`size() >= CONFIG_MAX_HISTORY` then `pop_front()`, then `push_back(book)`. -/
def appendSnapshot (cap : ℕ) (hist : List OrderBook) (book : OrderBook) : List OrderBook :=
  (if cap ≤ hist.length then hist.tail else hist) ++ [book]

/-- The latest-snapshot read of `TradeSimulator::SimulateTrade`
(MAIN.cpp lines 244-249): `orderBookHistory.back()` when non-empty. -/
def latestSnapshot (hist : List OrderBook) : Option OrderBook :=
  hist.getLast?

/-- Deepest call-stack depth, in frames, reached by
`WebSocketHandler::Connect` (MAIN.cpp lines 75-97) on a run whose
successive connection attempts fail or succeed as listed (`false` =
transport/handshake failure, `true` = success; an exhausted list ends the
run).  A failing attempt executes `Connect`'s catch clause, which calls
`RetryConnection` (lines 169-180), which sleeps and calls `Connect` again,
so each consecutive failure keeps the caller's `Connect` frame and the
`RetryConnection` frame alive under the nested `Connect`: 2 extra frames
per failure. -/
def connectStackDepth : List Bool → ℕ
  | [] => 1
  | ok :: rest => if ok then 1 else 2 + connectStackDepth rest

/-- `TradeSimulator::CalculateMarketImpact` (MAIN.cpp lines 312-319), the
simplified Almgren-Chriss model with the hard-coded constants `eta = 0.01`,
`gamma = 0.0001`, `timeHorizon = 1.0`:
`eta*q + gamma*q*q + volatility*sqrt(q)/sqrt(timeHorizon)`. -/
noncomputable def CalculateMarketImpact (orderQty volatility : ℝ) : ℝ :=
  let eta : ℝ := 0.01
  let gamma : ℝ := 0.0001
  let timeHorizon : ℝ := 1.0
  eta * orderQty + gamma * orderQty * orderQty +
    volatility * Real.sqrt orderQty / Real.sqrt timeHorizon

/-- `TradeSimulator::PredictMakerTakerRatio` (MAIN.cpp lines 321-324), the
logistic model `1 / (1 + exp(-(0.005*q - 0.1*volatility + 2)))`. -/
noncomputable def PredictMakerTakerRatio (orderQty volatility : ℝ) : ℝ :=
  1 / (1 + Real.exp (-(0.005 * orderQty - 0.1 * volatility + 2)))

/-- The try-block of `TradeSimulator::SimulateTrade` (MAIN.cpp lines
238-278): validate, read the latest snapshot (a default-constructed book
when the history is empty), return default results when either side of
that book is empty, otherwise fill each result field exactly as the
source does.  An escaping exception is a `SimError`. -/
noncomputable def SimulateTradeBody (hist : List OrderBook)
    (quantity volatility feeTier : ℚ) : Except SimError SimulationResults :=
  match ValidateInputs quantity volatility feeTier with
  | Except.error msg => Except.error (SimError.validation msg)
  | Except.ok _ =>
    let currentBook := (latestSnapshot hist).getD default
    if currentBook.bids.isEmpty || currentBook.asks.isEmpty then Except.ok {}
    else
      match CalculateSlippage quantity currentBook with
      | none => Except.error SimError.outOfBounds
      | some slip =>
        let fees : ℝ := (quantity : ℝ) * (feeTier : ℝ)
        let impact : ℝ := CalculateMarketImpact (quantity : ℝ) (volatility : ℝ)
        let ratio : ℝ := PredictMakerTakerRatio (quantity : ℝ) (volatility : ℝ)
        Except.ok
          { slippage := (slip : ℝ)
            fees := fees
            marketImpact := impact
            makerTakerRatio := ratio
            netCost := (slip : ℝ) + fees + impact
            latency := 0 }

/-- `TradeSimulator::SimulateTrade` as seen by its caller: the try-block
together with the surrounding `catch (const std::exception&)` clause
(MAIN.cpp lines 280-283), which logs and returns a default-constructed
`SimulationResults` for ANY exception that reaches it - including the
`std::invalid_argument` thrown by `ValidateInputs`. -/
noncomputable def SimulateTrade (hist : List OrderBook)
    (quantity volatility feeTier : ℚ) : SimulationResults :=
  match SimulateTradeBody hist quantity volatility feeTier with
  | Except.error _ => {}
  | Except.ok r => r

/-- The book built by TEST(TradeSimulatorTest, SlippageCalculation)
(MAIN.cpp lines 405-417): bids = [(100, 10)], asks = [(101, 5), (102, 10)]. -/
def testBook : OrderBook :=
  { symbol := "", asks := [(101, 5), (102, 10)], bids := [(100, 10)], timestamp := 0 }

/-- A second distinct snapshot, used to exercise history eviction. -/
def otherBook : OrderBook :=
  { symbol := "", asks := [(103, 1)], bids := [(99, 2)], timestamp := 1 }

/-- C2: on the reference book (bids [(100,10)], asks [(101,5),(102,10)])
with quantity 7, the slippage walk fills 5 at 101 and 2 at 102 for cost
709, and the returned slippage is 709/7 - 100 = 9/7, within 0.001 of
1.2857 and NOT within 0.001 of the inconsistent prior reference value
1.0. -/
theorem slippage_follows_formula_on_reference_book :
    CalculateSlippage 7 testBook = some (709 / 7 - 100) ∧
    |(709 / 7 - 100 : ℚ) - 12857 / 10000| < 1 / 1000 ∧
    ¬ |(709 / 7 - 100 : ℚ) - 1| < 1 / 1000 := by
  refine ⟨?_, ?_, ?_⟩
  · norm_num [CalculateSlippage, testBook, slippageWalk, min_def]
  · rw [abs_lt]; constructor <;> norm_num
  · rw [abs_lt]; push_neg; intro h; norm_num

/-- C1: calling SimulateTrade with the invalid quantity 0 does NOT raise
the validation error to the caller: the try-block does throw (the embedded
body yields the validation error), but the surrounding catch clause of
SimulateTrade converts it into the default-zero SimulationResults. -/
theorem simulateTrade_swallows_validation_error :
    SimulateTradeBody [testBook] 0 (1 / 100) (1 / 1000) =
      Except.error (SimError.validation "Quantity must be positive") ∧
    SimulateTrade [testBook] 0 (1 / 100) (1 / 1000) = {} := by
  constructor <;> rfl

/-- C3: the reconnect path is recursive, not iterative: after n
consecutive connection failures followed by a success, the nested
Connect/RetryConnection calls have driven the stack 2n + 1 frames deep,
so consecutive retries grow the call stack without bound. -/
theorem retryConnection_stack_depth_grows (n : ℕ) :
    connectStackDepth (List.replicate n false ++ [true]) = 2 * n + 1 := by
  induction n with
  | zero => rfl
  | succ n ih =>
    rw [List.replicate_succ, List.cons_append]
    show (if false then 1
        else 2 + connectStackDepth (List.replicate n false ++ [true])) = 2 * (n + 1) + 1
    rw [if_neg (by simp), ih]
    omega

/-- C7: for every q > 0 and v ≥ 0 the market-impact model returns
0.01q + 0.0001q^2 + v*sqrt(q)/sqrt(1), and at q = 100, v = 0.02 it
returns exactly 2.2 under exact-real arithmetic. -/
theorem marketImpact_model_value (q v : ℝ) (_hq : 0 < q) (_hv : 0 ≤ v) :
    CalculateMarketImpact q v = 0.01 * q + 0.0001 * q ^ 2 + v * Real.sqrt q / Real.sqrt 1 ∧
    CalculateMarketImpact 100 0.02 = 2.2 := by
  constructor
  · unfold CalculateMarketImpact
    norm_num
    ring
  · unfold CalculateMarketImpact
    have h100 : Real.sqrt 100 = 10 := by
      rw [show (100 : ℝ) = 10 ^ 2 by norm_num, Real.sqrt_sq (by norm_num : (0 : ℝ) ≤ 10)]
    show (0.01 : ℝ) * 100 + 0.0001 * 100 * 100 + 0.02 * Real.sqrt 100 / Real.sqrt 1.0 = 2.2
    rw [h100, show (1.0 : ℝ) = 1 by norm_num, Real.sqrt_one]
    norm_num

/-- C7 witness: the model instantiated at q = 1, v = 0 (and the spec's
q = 100, v = 0.02 example carried in the second conjunct). -/
theorem marketImpact_model_value_spec :
    CalculateMarketImpact 1 0 = 0.01 * 1 + 0.0001 * 1 ^ 2 + 0 * Real.sqrt 1 / Real.sqrt 1 ∧
    CalculateMarketImpact 100 0.02 = 2.2 :=
  marketImpact_model_value 1 0 one_pos le_rfl

/-- When the total ask depth in front of the walk is strictly below the
order quantity (and sizes are nonnegative), every level is taken whole
and the break never fires: the walk returns the whole visible depth and
its full notional cost. -/
lemma slippageWalk_underfill (q : ℚ) :
    ∀ (asks : List (ℚ × ℚ)) (filled cost : ℚ),
      (∀ l ∈ asks, 0 ≤ l.2) →
      filled + (asks.map Prod.snd).sum < q →
      slippageWalk q asks filled cost =
        (filled + (asks.map Prod.snd).sum,
         cost + (asks.map (fun l => l.2 * l.1)).sum) := by
  intro asks
  induction asks with
  | nil => intro filled cost _ _; simp [slippageWalk]
  | cons l rest ih =>
    intro filled cost hnn hlt
    have hrest_nn : 0 ≤ (rest.map Prod.snd).sum :=
      List.sum_nonneg (by
        intro x hx
        obtain ⟨p, hp, rfl⟩ := List.mem_map.mp hx
        exact hnn p (List.mem_cons_of_mem _ hp))
    have hsum : (List.map Prod.snd (l :: rest)).sum = l.2 + (rest.map Prod.snd).sum := by
      simp
    rw [hsum] at hlt
    have htake : min (q - filled) l.2 = l.2 := min_eq_right (by linarith)
    have hbreak : ¬ q ≤ filled + l.2 := by linarith
    show (if q ≤ filled + min (q - filled) l.2 then
            (filled + min (q - filled) l.2, cost + min (q - filled) l.2 * l.1)
          else slippageWalk q rest (filled + min (q - filled) l.2)
            (cost + min (q - filled) l.2 * l.1)) = _
    rw [htake, if_neg hbreak, ih (filled + l.2) (cost + l.2 * l.1)
      (fun x hx => hnn x (List.mem_cons_of_mem _ hx)) (by linarith)]
    simp only [Prod.mk.injEq, List.map_cons, List.sum_cons]
    constructor <;> ring

/-- C4: on a thin book (total visible ask depth strictly below the
requested quantity, sizes nonnegative), the slippage accumulates the cost
of the filled portion only - the entire ask depth - yet still divides by
the full requested quantity before subtracting the best bid. -/
theorem thin_book_divides_by_full_quantity (q : ℚ) (book : OrderBook) (best : ℚ × ℚ)
    (hbid : book.bids.head? = some best)
    (hnn : ∀ l ∈ book.asks, 0 ≤ l.2)
    (hthin : (book.asks.map Prod.snd).sum < q) :
    CalculateSlippage q book =
      some ((book.asks.map (fun l => l.2 * l.1)).sum / q - best.1) := by
  unfold CalculateSlippage
  rw [hbid, slippageWalk_underfill q book.asks 0 0 hnn (by linarith)]
  norm_num

/-- C4 witness: the reference book holds 15 units of asks; requesting 20
yields cost 5*101 + 10*102 = 1525 over the full divisor 20, i.e. the
understated slippage 1525/20 - 100. -/
theorem thin_book_divides_by_full_quantity_spec :
    CalculateSlippage 20 testBook = some (1525 / 20 - 100) := by
  have h := thin_book_divides_by_full_quantity 20 testBook (100, 10) rfl
    (by norm_num [testBook]) (by norm_num [testBook])
  rw [h]
  norm_num [testBook]

/-- Appending snapshots while the capacity is never reached evicts
nothing: the history is just extended on the right. -/
lemma foldl_appendSnapshot_no_evict (cap : ℕ) :
    ∀ (rest hist : List OrderBook), hist.length + rest.length ≤ cap →
      List.foldl (appendSnapshot cap) hist rest = hist ++ rest := by
  intro rest
  induction rest with
  | nil => intro hist _; simp
  | cons b rest ih =>
    intro hist h
    simp only [List.length_cons] at h
    have hlt : ¬ cap ≤ hist.length := by omega
    have hstep : appendSnapshot cap hist b = hist ++ [b] := by
      unfold appendSnapshot; rw [if_neg hlt]
    rw [List.foldl_cons, hstep, ih (hist ++ [b]) (by simp; omega)]
    simp

/-- C5: the capacity-cap history store keeps size ≤ cap across an append,
appending cap + 1 snapshots to the empty history leaves exactly the last
cap of them (the first-appended snapshot is evicted), and after any
append the latest accessor returns the snapshot just appended. -/
theorem history_capacity_fifo_latest (cap : ℕ) (hcap : 1 ≤ cap) :
    (∀ (hist : List OrderBook) (b : OrderBook), hist.length ≤ cap →
      (appendSnapshot cap hist b).length ≤ cap) ∧
    (∀ snaps : List OrderBook, snaps.length = cap + 1 →
      List.foldl (appendSnapshot cap) [] snaps = snaps.tail ∧
      (List.foldl (appendSnapshot cap) [] snaps).length = cap) ∧
    (∀ (hist : List OrderBook) (b : OrderBook),
      latestSnapshot (appendSnapshot cap hist b) = some b) := by
  refine ⟨?_, ?_, ?_⟩
  · intro hist b hlen
    unfold appendSnapshot
    by_cases hc : cap ≤ hist.length
    · rw [if_pos hc]
      simp only [List.length_append, List.length_tail, List.length_cons, List.length_nil]
      omega
    · rw [if_neg hc]
      simp only [List.length_append, List.length_cons, List.length_nil]
      omega
  · intro snaps hlen
    have hne : snaps ≠ [] := List.ne_nil_of_length_pos (by omega)
    have hdrop : snaps.dropLast.length = cap := by
      rw [List.length_dropLast, hlen]
      omega
    obtain ⟨x, xs, hxs⟩ : ∃ x xs, snaps.dropLast = x :: xs := by
      cases h : snaps.dropLast with
      | nil => rw [h] at hdrop; simp at hdrop; omega
      | cons x xs => exact ⟨x, xs, rfl⟩
    have hsplit : snaps = snaps.dropLast ++ [snaps.getLast hne] :=
      (List.dropLast_append_getLast hne).symm
    have hfold : List.foldl (appendSnapshot cap) [] snaps =
        appendSnapshot cap snaps.dropLast (snaps.getLast hne) := by
      conv_lhs => rw [hsplit]
      rw [List.foldl_append]
      rw [foldl_appendSnapshot_no_evict cap snaps.dropLast [] (by simp [hdrop])]
      simp
    have hevict : appendSnapshot cap snaps.dropLast (snaps.getLast hne) =
        snaps.dropLast.tail ++ [snaps.getLast hne] := by
      unfold appendSnapshot
      rw [if_pos (by rw [hdrop])]
    have htail : snaps.tail = snaps.dropLast.tail ++ [snaps.getLast hne] := by
      conv_lhs => rw [hsplit]
      rw [hxs]
      simp
    constructor
    · rw [hfold, hevict, htail]
    · rw [hfold, hevict]
      simp only [List.length_append, List.length_cons, List.length_nil]
      rw [hxs]
      simp only [List.tail_cons]
      have : xs.length + 1 = cap := by rw [← hdrop, hxs]; simp
      omega
  · intro hist b
    unfold latestSnapshot appendSnapshot
    exact List.getLast?_concat _

/-- C5 witness: at capacity 1, appending two snapshots leaves only the
second, the size bound holds, and the latest accessor returns it. -/
theorem history_capacity_fifo_latest_spec :
    List.foldl (appendSnapshot 1) [] [testBook, otherBook] = [testBook, otherBook].tail ∧
    (appendSnapshot 1 [testBook] otherBook).length ≤ 1 ∧
    latestSnapshot (appendSnapshot 1 [testBook] otherBook) = some otherBook := by
  obtain ⟨h1, h2, h3⟩ := history_capacity_fifo_latest 1 le_rfl
  exact ⟨(h2 [testBook, otherBook] rfl).1, h1 [testBook] otherBook le_rfl,
    h3 [testBook] otherBook⟩

/-- Valid arguments pass ValidateInputs: every guard of MAIN.cpp lines
288-290 is skipped. -/
lemma ValidateInputs_ok (q v f : ℚ) (hq : 0 < q) (hv : 0 ≤ v) (hf0 : 0 ≤ f) (hf1 : f ≤ 1) :
    ValidateInputs q v f = Except.ok () := by
  unfold ValidateInputs
  rw [if_neg (not_le.mpr hq), if_neg (not_lt.mpr hv),
    if_neg (by push_neg; exact ⟨hf0, hf1⟩)]

/-- C6: with valid arguments, an empty history (the selected book is then
default-constructed with empty sides) or an empty bid or ask side makes
compute return the default all-zero result without raising any error. -/
theorem empty_snapshot_default_result (hist : List OrderBook) (q v f : ℚ)
    (hq : 0 < q) (hv : 0 ≤ v) (hf0 : 0 ≤ f) (hf1 : f ≤ 1)
    (hempty : hist = [] ∨ ((latestSnapshot hist).getD default).bids = [] ∨
      ((latestSnapshot hist).getD default).asks = []) :
    SimulateTradeBody hist q v f = Except.ok {} ∧
    SimulateTrade hist q v f = {} := by
  have hval := ValidateInputs_ok q v f hq hv hf0 hf1
  have hguard : (((latestSnapshot hist).getD default).bids.isEmpty ||
      ((latestSnapshot hist).getD default).asks.isEmpty) = true := by
    rcases hempty with h | h | h
    · subst h; rfl
    · simp [h]
    · simp [h]
  have hbody : SimulateTradeBody hist q v f = Except.ok {} := by
    unfold SimulateTradeBody
    simp only [hval, hguard, if_true]
  refine ⟨hbody, ?_⟩
  unfold SimulateTrade
  rw [hbody]

/-- C6 witness: the empty history with quantity 1, volatility 0, fee
tier 0. -/
theorem empty_snapshot_default_result_spec :
    SimulateTradeBody [] 1 0 0 = Except.ok {} ∧
    SimulateTrade [] 1 0 0 = {} :=
  empty_snapshot_default_result [] 1 0 0 one_pos le_rfl le_rfl zero_le_one (Or.inl rfl)

/-- C8: for valid arguments and a latest snapshot with both sides
non-empty, the published result has fees = quantity * feeTier and
netCost = slippage + fees + marketImpact; the maker/taker ratio does not
enter netCost. -/
theorem fees_and_netCost_composition (hist : List OrderBook) (q v f : ℚ)
    (hq : 0 < q) (hv : 0 ≤ v) (hf0 : 0 ≤ f) (hf1 : f ≤ 1)
    (hbids : ((latestSnapshot hist).getD default).bids ≠ [])
    (hasks : ((latestSnapshot hist).getD default).asks ≠ []) :
    (SimulateTrade hist q v f).fees = (q : ℝ) * (f : ℝ) ∧
    (SimulateTrade hist q v f).netCost =
      (SimulateTrade hist q v f).slippage + (SimulateTrade hist q v f).fees +
        (SimulateTrade hist q v f).marketImpact := by
  have hval := ValidateInputs_ok q v f hq hv hf0 hf1
  set book := (latestSnapshot hist).getD default with hbook
  obtain ⟨bb, bbs, hbb⟩ : ∃ x xs, book.bids = x :: xs := by
    cases h : book.bids with
    | nil => exact absurd h hbids
    | cons x xs => exact ⟨x, xs, rfl⟩
  have hguard : (book.bids.isEmpty || book.asks.isEmpty) = false := by
    cases h : book.asks with
    | nil => exact absurd h hasks
    | cons y ys => simp [hbb, h]
  have hslip : CalculateSlippage q book =
      some ((slippageWalk q book.asks 0 0).2 / q - bb.1) := by
    unfold CalculateSlippage
    rw [hbb]
    rfl
  have hbody : SimulateTradeBody hist q v f = Except.ok
      { slippage := (((slippageWalk q book.asks 0 0).2 / q - bb.1 : ℚ) : ℝ)
        fees := (q : ℝ) * (f : ℝ)
        marketImpact := CalculateMarketImpact (q : ℝ) (v : ℝ)
        makerTakerRatio := PredictMakerTakerRatio (q : ℝ) (v : ℝ)
        netCost := (((slippageWalk q book.asks 0 0).2 / q - bb.1 : ℚ) : ℝ) +
          (q : ℝ) * (f : ℝ) + CalculateMarketImpact (q : ℝ) (v : ℝ)
        latency := 0 } := by
    unfold SimulateTradeBody
    simp only [hval, ← hbook, hguard, Bool.false_eq_true, if_false, hslip]
  unfold SimulateTrade
  rw [hbody]
  exact ⟨rfl, rfl⟩

/-- C8 witness: the cost composition instantiated at the book and the
arguments of the source's own slippage test. -/
theorem fees_and_netCost_composition_spec :
    (SimulateTrade [testBook] 7 (1 / 100) (1 / 1000)).fees =
      ((7 : ℚ) : ℝ) * ((1 / 1000 : ℚ) : ℝ) ∧
    (SimulateTrade [testBook] 7 (1 / 100) (1 / 1000)).netCost =
      (SimulateTrade [testBook] 7 (1 / 100) (1 / 1000)).slippage +
        (SimulateTrade [testBook] 7 (1 / 100) (1 / 1000)).fees +
        (SimulateTrade [testBook] 7 (1 / 100) (1 / 1000)).marketImpact :=
  fees_and_netCost_composition [testBook] 7 (1 / 100) (1 / 1000)
    (by norm_num) (by norm_num) (by norm_num) (by norm_num)
    (by simp [latestSnapshot, testBook]) (by simp [latestSnapshot, testBook])

/-- C9: on every execution path of compute, the bids[0] access inside the
slippage calculation happens only behind the non-empty-sides guard, so
the out-of-bounds (none) branch of the Option embedding is unreachable
for every input. -/
theorem bids_index_in_bounds (hist : List OrderBook) (q v f : ℚ) :
    SimulateTradeBody hist q v f ≠ Except.error SimError.outOfBounds := by
  unfold SimulateTradeBody
  cases hval : ValidateInputs q v f with
  | error msg => simp
  | ok u =>
    set book := (latestSnapshot hist).getD default with hbook
    by_cases hb : (book.bids.isEmpty || book.asks.isEmpty) = true
    · simp [hb]
    · cases hcb : book.bids with
      | nil => exact absurd (by rw [hcb]; simp) hb
      | cons x xs =>
        have hslip : CalculateSlippage q book =
            some ((slippageWalk q book.asks 0 0).2 / q - x.1) := by
          unfold CalculateSlippage
          rw [hcb]
          rfl
        rw [if_neg hb, hslip]
        simp

/-- C10: the predicted maker/taker ratio 1/(1 + exp(-(0.005q - 0.1v + 2)))
lies strictly between 0 and 1 for every quantity and volatility, because
exp is strictly positive. -/
theorem makerTakerRatio_strictly_between_zero_one (q v : ℝ) :
    0 < PredictMakerTakerRatio q v ∧ PredictMakerTakerRatio q v < 1 := by
  unfold PredictMakerTakerRatio
  have he : 0 < Real.exp (-(0.005 * q - 0.1 * v + 2)) := Real.exp_pos _
  constructor
  · positivity
  · rw [div_lt_one (by linarith)]
    linarith
